import Mathlib

/-!
Verification of the CPU counting utility (src/cpucount/cpucount_linux.cpp).

The development shallowly embeds the pure computational core of the
program: the bit-field width computation `find_maskwidth`, the sub-ID
extraction `getSubID`, the two bucket-deduplication counters
`countAvailableCores` and `countPhysicalPacks`, and the classification
tail of `CPUCount`.  The stateful probe loop of `CPUCount` (affinity
pinning, APIC reads, table writes) is embedded as explicit state
passing over an environment that models the OS collaborators
(affinity control and the `cpuid`-derived scalars).

Machine integers are modelled as `Nat` with explicit reduction
`% 4294967296` (2^32, the width of `unsigned int`) where overflow can
occur, and `% 65536` (2^16) where the source operates on a 16-bit
subregister.
-/

/-- Fuel-indexed position of the highest set bit: for `0 < x < 2 ^ (fuel + 1)`,
`bsrFuel fuel x` is the index of the most significant one bit of `x`
(equals `Nat.log 2 x`).  Structural recursion on the fuel keeps the
definition kernel-reducible. -/
def bsrFuel : Nat → Nat → Nat
  | 0, _ => 0
  | f + 1, x => if x < 2 then 0 else bsrFuel f (x / 2) + 1

/-- Semantics of the x86 `bsr` instruction on a 16-bit operand (as used by
the `bsrw %ax,%cx` instruction in `find_maskwidth`): the index of the
highest set bit of `x`, for nonzero `x < 2 ^ 16`.  Fuel 16 is enough for
any 16-bit operand. -/
def bsr (x : Nat) : Nat := bsrFuel 16 x

/-- Embedding of `find_maskwidth` (cpucount_linux.cpp lines 122-159).
The inline assembly computes: `ecx := 0`; `eax := count - 1` (32-bit
`decl`, so subtraction wraps modulo 2^32); `bsrw %ax,%cx` scans only the
low 16-bit word `ax` of `eax`; if `ax` is zero the `jz` skips the
`incw`, leaving the zeroed `ecx`, otherwise the result is the highest
set bit position of `ax` plus one. -/
def find_maskwidth (countItem : Nat) : Nat :=
  let count := countItem % 4294967296
  let eax := (count + 4294967295) % 4294967296
  let ax := eax % 65536
  if ax = 0 then 0 else bsr ax + 1

/-- Embedding of `getSubID` (cpucount_linux.cpp lines 165-177):
`maskBits = (0xff << shiftCount) ^ (0xff << (shiftCount + maskWidth))`,
reduced modulo 2^32 since the shifts land in an `unsigned int`, and the
result is `fullID & maskBits`. -/
def getSubID (fullID maxSubIDValue shiftCount : Nat) : Nat :=
  let maskWidth := find_maskwidth maxSubIDValue
  let maskBits := ((255 <<< shiftCount) ^^^ (255 <<< (shiftCount + maskWidth))) % 4294967296
  fullID &&& maskBits

/-- Bucket list built by the deduplication loops of `countAvailableCores`
(lines 313-341) and `countPhysicalPacks` (lines 358-385): bucket 0 is
seeded with `key 0`, then for `procNum = 1, ..., m` the key is linearly
searched among the existing buckets and appended if absent
(first-seen-wins).  `bucketLoop key m` is the bucket array after the
loop has processed `procNum = 1, ..., m`. -/
def bucketLoop (key : Nat → Nat) : Nat → List Nat
  | 0 => [key 0]
  | m + 1 =>
    let b := bucketLoop key m
    if key (m + 1) ∈ b then b else b ++ [key (m + 1)]

/-- Embedding of `countAvailableCores` (cpucount_linux.cpp lines 301-343).
The C arrays are modelled as functions from index to stored value; the
function reads entries `0, ..., numLPEnabled - 1` and returns the number
of buckets.  With `numLPEnabled = 0` the loop body never runs (the
comparison `procNum < numLPEnabled` is unsigned) and the count is 1,
matching the unconditionally seeded bucket 0. -/
def countAvailableCores (tblPkgID tblCoreID : Nat → Nat) (numLPEnabled : Nat) : Nat :=
  (bucketLoop (fun i => tblPkgID i ||| tblCoreID i) (numLPEnabled - 1)).length

/-- Embedding of `countPhysicalPacks` (cpucount_linux.cpp lines 348-387),
the same bucket loop keyed on `tblPkgID` alone. -/
def countPhysicalPacks (tblPkgID : Nat → Nat) (numLPEnabled : Nat) : Nat :=
  (bucketLoop tblPkgID (numLPEnabled - 1)).length

/-- Status code `USER_CONFIG_ISSUE` (line 62). -/
def USER_CONFIG_ISSUE : Nat := 0

/-- Status code `SINGLE_CORE_AND_HT_NOT_CAPABLE` (line 63). -/
def SINGLE_CORE_AND_HT_NOT_CAPABLE : Nat := 1

/-- Status code `SINGLE_CORE_AND_HT_ENABLED` (line 64). -/
def SINGLE_CORE_AND_HT_ENABLED : Nat := 2

/-- Status code `SINGLE_CORE_AND_HT_DISABLED` (line 65). -/
def SINGLE_CORE_AND_HT_DISABLED : Nat := 3

/-- Status code `MULTI_CORE_AND_HT_NOT_CAPABLE` (line 66). -/
def MULTI_CORE_AND_HT_NOT_CAPABLE : Nat := 4

/-- Status code `MULTI_CORE_AND_HT_ENABLED` (line 67). -/
def MULTI_CORE_AND_HT_ENABLED : Nat := 5

/-- Status code `MULTI_CORE_AND_HT_DISABLED` (line 68). -/
def MULTI_CORE_AND_HT_DISABLED : Nat := 6

/-- Classification tail of `CPUCount` (cpucount_linux.cpp lines 512-536):
given the final values `*totAvailCore`, `*totPhysPack`, `logicalPerCore`
and `numLPEnabled`, decide which of the six capability status codes is
returned. -/
def CPUCountStatusOfCounts
    (totAvailCore totPhysPack logicalPerCore numLPEnabled : Nat) : Nat :=
  if totAvailCore > totPhysPack then
    if logicalPerCore = 1 then MULTI_CORE_AND_HT_NOT_CAPABLE
    else if numLPEnabled > totAvailCore then MULTI_CORE_AND_HT_ENABLED
    else MULTI_CORE_AND_HT_DISABLED
  else
    if logicalPerCore = 1 then SINGLE_CORE_AND_HT_NOT_CAPABLE
    else if numLPEnabled > totAvailCore then SINGLE_CORE_AND_HT_ENABLED
    else SINGLE_CORE_AND_HT_DISABLED

/-- The six capability classifications of the specification (section 4.3). -/
inductive CapabilityClassification where
  | SingleCoreHTNotCapable
  | SingleCoreHTEnabled
  | SingleCoreHTDisabled
  | MultiCoreHTNotCapable
  | MultiCoreHTEnabled
  | MultiCoreHTDisabled
deriving DecidableEq

/-- Modelled from the spec: the `classify` decision tree of section 4.3,
written from the specification text (for comparison against the
classification tail of the code). -/
def classifySpec
    (distinctCoreCount distinctPackageCount logicalPerCore enabledLogicalCount : Nat) :
    CapabilityClassification :=
  if distinctCoreCount > distinctPackageCount then
    if logicalPerCore = 1 then .MultiCoreHTNotCapable
    else if enabledLogicalCount > distinctCoreCount then .MultiCoreHTEnabled
    else .MultiCoreHTDisabled
  else
    if logicalPerCore = 1 then .SingleCoreHTNotCapable
    else if enabledLogicalCount > distinctCoreCount then .SingleCoreHTEnabled
    else .SingleCoreHTDisabled

/-- Status code returned by the program for each classification. -/
def statusCode : CapabilityClassification → Nat
  | .SingleCoreHTNotCapable => SINGLE_CORE_AND_HT_NOT_CAPABLE
  | .SingleCoreHTEnabled => SINGLE_CORE_AND_HT_ENABLED
  | .SingleCoreHTDisabled => SINGLE_CORE_AND_HT_DISABLED
  | .MultiCoreHTNotCapable => MULTI_CORE_AND_HT_NOT_CAPABLE
  | .MultiCoreHTEnabled => MULTI_CORE_AND_HT_ENABLED
  | .MultiCoreHTDisabled => MULTI_CORE_AND_HT_DISABLED

/-- One row of the topology table: the slot index the probe wrote
(`tblSMTID[j]` etc. are indexed by the processor number `j`, line 464)
together with the three sub-identifiers stored there. -/
structure LPRec where
  index : Nat
  smtId : Nat
  coreId : Nat
  pkgId : Nat
deriving DecidableEq, Repr

/-- Environment of one `CPUCount` run: everything the function obtains
from its OS and hardware collaborators.  `sysAffinityMask` is the
process affinity mask read at entry (line 414); `pinOK j` tells whether
`misc_sched_setaffinity` succeeds for the singleton mask containing `j`
(line 451); `restoreApplied` tells whether the kernel honours the final
restoring `misc_sched_setaffinity` call (line 493, return value
ignored by the code); `apic j` is the APIC ID `get_apic_id` reads while
pinned to processor `j`; `logicalPerPack` and `corePerPack` are the two
`cpuid`-derived scalars (lines 424, 428); `tblPkgInit`, `tblCoreInit`
and `tblSMTInit` are the uninitialised stack contents of the three
tables (line 400). -/
structure ProbeEnv where
  numProcessors : Nat
  sysAffinityMask : Finset Nat
  pinOK : Nat → Bool
  restoreApplied : Bool
  apic : Nat → Nat
  logicalPerPack : Nat
  corePerPack : Int
  tblPkgInit : Nat → Nat
  tblCoreInit : Nat → Nat
  tblSMTInit : Nat → Nat

/-- Mutable state of the probe loop of `CPUCount` (lines 446-489): the
current process affinity mask, the three tables, the enabled-processor
counter and the list of records written so far (in write order). -/
structure LoopState where
  mask : Finset Nat
  tblPkgID : Nat → Nat
  tblCoreID : Nat → Nat
  tblSMTID : Nat → Nat
  numLPEnabled : Nat
  records : List LPRec

/-- One iteration of the probe loop (lines 448-488) for processor `j`:
pin affinity to `{j}`; on success read the APIC ID and store the three
sub-identifiers at table index `j`, incrementing `numLPEnabled`; on
failure leave everything unchanged (the processor is silently
skipped). -/
def probeStep (env : ProbeEnv) (logicalPerCore corePerPack : Nat)
    (j : Nat) (st : LoopState) : LoopState :=
  if env.pinOK j then
    let apicID := env.apic j
    let smt := getSubID apicID logicalPerCore 0
    let core := getSubID apicID corePerPack (find_maskwidth logicalPerCore)
    let packageIDMask := (255 <<< find_maskwidth env.logicalPerPack) % 4294967296
    let pkg := apicID &&& packageIDMask
    { mask := {j}
      tblPkgID := fun i => if i = j then pkg else st.tblPkgID i
      tblCoreID := fun i => if i = j then core else st.tblCoreID i
      tblSMTID := fun i => if i = j then smt else st.tblSMTID i
      numLPEnabled := st.numLPEnabled + 1
      records := st.records ++ [⟨j, smt, core, pkg⟩] }
  else
    st

/-- The probe loop folded over the processor indices. -/
def probeLoop (env : ProbeEnv) (logicalPerCore corePerPack : Nat) :
    List Nat → LoopState → LoopState
  | [], st => st
  | j :: rest, st => probeLoop env logicalPerCore corePerPack rest
      (probeStep env logicalPerCore corePerPack j st)

/-- Observable outcome of one `CPUCount` call: the returned status, the
final values of the three out-parameters (`totAvailLogical` is `none`
on the early-return paths, where line 497 is never reached), the list
of records the probe wrote and the process affinity mask at return. -/
structure CPUCountOut where
  status : Nat
  totAvailLogical : Option Nat
  totAvailCore : Nat
  totPhysPack : Nat
  records : List LPRec
  finalMask : Finset Nat

/-- Embedding of `CPUCount` (cpucount_linux.cpp lines 393-537) as a
function of its environment.  Lines 403-404 initialise both counts to 1;
lines 416-420 return `USER_CONFIG_ISSUE` if some configured processor is
missing from the affinity mask (before any affinity mutation); lines
430-431 return `USER_CONFIG_ISSUE` if `corePerPack <= 0` (also before
any mutation); otherwise the probe loop runs over processors
`0, ..., numProcessors - 1`, line 493 restores the entry mask, and the
aggregation and classification produce the result. -/
def CPUCountRun (env : ProbeEnv) : CPUCountOut :=
  if ∀ i ∈ Finset.range env.numProcessors, i ∈ env.sysAffinityMask then
    if env.corePerPack ≤ 0 then
      { status := USER_CONFIG_ISSUE, totAvailLogical := none,
        totAvailCore := 1, totPhysPack := 1,
        records := [], finalMask := env.sysAffinityMask }
    else
      let corePerPack := env.corePerPack.toNat
      let logicalPerCore := env.logicalPerPack / corePerPack
      let st0 : LoopState :=
        { mask := env.sysAffinityMask, tblPkgID := env.tblPkgInit,
          tblCoreID := env.tblCoreInit, tblSMTID := env.tblSMTInit,
          numLPEnabled := 0, records := [] }
      let fin := probeLoop env logicalPerCore corePerPack
        (List.range env.numProcessors) st0
      let finalMask := if env.restoreApplied then env.sysAffinityMask else fin.mask
      let totAvailCore := countAvailableCores fin.tblPkgID fin.tblCoreID fin.numLPEnabled
      let totPhysPack := countPhysicalPacks fin.tblPkgID fin.numLPEnabled
      { status := CPUCountStatusOfCounts totAvailCore totPhysPack
          logicalPerCore fin.numLPEnabled,
        totAvailLogical := some fin.numLPEnabled,
        totAvailCore := totAvailCore, totPhysPack := totPhysPack,
        records := fin.records, finalMask := finalMask }
  else
    { status := USER_CONFIG_ISSUE, totAvailLogical := none,
      totAvailCore := 1, totPhysPack := 1,
      records := [], finalMask := env.sysAffinityMask }

/-- Synthetic 4-record package-ID table of the test property in the
spec: values 0, 0, 1, 1. -/
def pkgT4 : Nat → Nat := fun i => [0, 0, 1, 1].getD i 0

/-- Synthetic 4-record core-ID table of the test property in the
spec: values 0, 1, 0, 1. -/
def coreT4 : Nat → Nat := fun i => [0, 1, 0, 1].getD i 0

/-- Two-record package table 0, 1 whose core table `coreSwap` swaps the
bit instead: both OR keys equal 1 while the package IDs differ. -/
def pkgSwap : Nat → Nat := fun i => [0, 1].getD i 0

/-- Two-record core table 1, 0 paired with `pkgSwap`. -/
def coreSwap : Nat → Nat := fun i => [1, 0].getD i 0

/-- Two-record package table 0, 4 whose values live inside the mask 12
(bits 2-3), disjoint from the core field. -/
def pkgDisj : Nat → Nat := fun i => [0, 4].getD i 0

/-- Two-record core table 1, 1, disjoint from the mask 12. -/
def coreDisj : Nat → Nat := fun i => [1, 1].getD i 0

/-- Concrete probe environment: one processor, enabled in the affinity
mask, pinning succeeds, APIC ID 5, two logical processors per package
and two cores per package. -/
def envW : ProbeEnv :=
  { numProcessors := 1, sysAffinityMask := {0}, pinOK := fun _ => true,
    restoreApplied := true, apic := fun _ => 5, logicalPerPack := 2,
    corePerPack := 2, tblPkgInit := fun _ => 0, tblCoreInit := fun _ => 0,
    tblSMTInit := fun _ => 0 }

/-- The record the probe produces in environment `envW`: APIC ID 5 with
one logical processor per core splits into SMT ID 0, core ID 1,
package ID 4. -/
def rW : LPRec := { index := 0, smtId := 0, coreId := 1, pkgId := 4 }

/-- Concrete probe environment whose affinity mask is missing processor
0, forcing the early `USER_CONFIG_ISSUE` return before any probing. -/
def envEarly : ProbeEnv :=
  { numProcessors := 1, sysAffinityMask := ∅, pinOK := fun _ => false,
    restoreApplied := false, apic := fun _ => 0, logicalPerPack := 1,
    corePerPack := 1, tblPkgInit := fun _ => 0, tblCoreInit := fun _ => 0,
    tblSMTInit := fun _ => 0 }

/-- Concrete probe environment with two processors where pinning to
processor 0 fails and pinning to processor 1 succeeds: the single
record is written at table index 1 while `numLPEnabled` becomes 1, so
the aggregation functions read the uninitialised slot 0 (holding the
garbage value 7) and never read the written slot 1. -/
def envBug : ProbeEnv :=
  { numProcessors := 2, sysAffinityMask := {0, 1}, pinOK := fun j => j == 1,
    restoreApplied := true, apic := fun _ => 0, logicalPerPack := 1,
    corePerPack := 1, tblPkgInit := fun _ => 7, tblCoreInit := fun _ => 7,
    tblSMTInit := fun _ => 7 }
theorem bsrFuel_eq_log (f : Nat) : ∀ x, 0 < x → x < 2 ^ (f + 1) → bsrFuel f x = Nat.log 2 x := by
  induction f with
  | zero =>
    intro x hx hlt
    have : x = 1 := by omega
    subst this
    simp [bsrFuel]
  | succ f ih =>
    intro x hx hlt
    by_cases h2 : x < 2
    · have : x = 1 := by omega
      subst this
      simp [bsrFuel]
    · have hx2 : 2 ≤ x := by omega
      have hpos : 0 < x / 2 := Nat.div_pos hx2 (by omega)
      have hlt2 : x / 2 < 2 ^ (f + 1) := by
        have : x < 2 ^ (f + 1) * 2 := by
          calc x < 2 ^ (f + 1 + 1) := hlt
          _ = 2 ^ (f + 1) * 2 := by rw [pow_succ]
        omega
      have hlog : Nat.log 2 (x / 2) = Nat.log 2 x - 1 := Nat.log_div_base 2 x
      have hlogpos : 0 < Nat.log 2 x := Nat.log_pos (by omega) hx2
      have : bsrFuel (f + 1) x = bsrFuel f (x / 2) + 1 := by
        simp [bsrFuel, h2]
      rw [this, ih (x / 2) hpos hlt2, hlog]
      omega

theorem bsr_eq_log (x : Nat) (hx : 0 < x) (hlt : x < 131072) : bsr x = Nat.log 2 x :=
  bsrFuel_eq_log 16 x hx (by omega)

theorem find_maskwidth_eq (n : Nat) (h1 : 1 ≤ n) (h2 : n ≤ 65536) :
    find_maskwidth n = if n = 1 then 0 else Nat.log 2 (n - 1) + 1 := by
  have e1 : n % 4294967296 = n := Nat.mod_eq_of_lt (by omega)
  have e2 : (n + 4294967295) % 4294967296 = n - 1 := by
    have h : n + 4294967295 = (n - 1) + 4294967296 := by omega
    rw [h, Nat.add_mod_right, Nat.mod_eq_of_lt (by omega)]
  have e3 : (n - 1) % 65536 = n - 1 := Nat.mod_eq_of_lt (by omega)
  by_cases h : n = 1
  · subst h
    simp [find_maskwidth]
  · have hne : ¬ (n - 1 = 0) := by omega
    simp only [find_maskwidth, e1, e2, e3, hne, if_false, if_neg h]
    rw [bsr_eq_log (n - 1) (by omega) (by omega)]

theorem find_maskwidth_pow_ge (n : Nat) (h1 : 1 ≤ n) (h2 : n ≤ 65536) :
    n ≤ 2 ^ find_maskwidth n := by
  rw [find_maskwidth_eq n h1 h2]
  by_cases h : n = 1
  · subst h; simp
  · simp only [h, if_false]
    have := Nat.lt_pow_succ_log_self (show 1 < 2 by omega) (n - 1)
    calc n = (n - 1) + 1 := by omega
    _ ≤ 2 ^ (Nat.log 2 (n - 1)).succ := this
    _ = 2 ^ (Nat.log 2 (n - 1) + 1) := rfl

theorem find_maskwidth_pow_lt (n : Nat) (h1 : 1 ≤ n) (h2 : n ≤ 65536)
    (hpos : 0 < find_maskwidth n) : 2 ^ (find_maskwidth n - 1) < n := by
  rw [find_maskwidth_eq n h1 h2] at hpos ⊢
  by_cases h : n = 1
  · subst h; simp at hpos
  · simp only [h, if_false, Nat.add_sub_cancel] at hpos ⊢
    have := Nat.pow_log_le_self 2 (show n - 1 ≠ 0 by omega)
    omega

theorem find_maskwidth_eq_clog (n : Nat) (h1 : 1 ≤ n) (h2 : n ≤ 65536) :
    find_maskwidth n = Nat.clog 2 n := by
  have hge := find_maskwidth_pow_ge n h1 h2
  have hle : Nat.clog 2 n ≤ find_maskwidth n :=
    (Nat.le_pow_iff_clog_le (by omega)).mp hge
  by_cases hpos : 0 < find_maskwidth n
  · have hlt := find_maskwidth_pow_lt n h1 h2 hpos
    have : find_maskwidth n - 1 < Nat.clog 2 n :=
      (Nat.pow_lt_iff_lt_clog (by omega)).mp hlt
    omega
  · omega

theorem bucketLoop_nodup_toFinset (key : Nat → Nat) (m : Nat) :
    (bucketLoop key m).Nodup ∧
      (bucketLoop key m).toFinset = Finset.image key (Finset.range (m + 1)) := by
  induction m with
  | zero =>
    constructor
    · simp [bucketLoop]
    · simp [bucketLoop, Finset.range_one]
  | succ m ih =>
    by_cases h : key (m + 1) ∈ bucketLoop key m
    · have hb : bucketLoop key (m + 1) = bucketLoop key m := by
        simp [bucketLoop, h]
      rw [hb]
      refine ⟨ih.1, ?_⟩
      rw [Finset.range_succ, Finset.image_insert, ih.2.symm]
      exact (Finset.insert_eq_self.mpr (List.mem_toFinset.mpr h)).symm
    · have hb : bucketLoop key (m + 1) = bucketLoop key m ++ [key (m + 1)] := by
        simp [bucketLoop, h]
      rw [hb]
      constructor
      · rw [List.nodup_append]
        refine ⟨ih.1, by simp, ?_⟩
        intro a ha hmem
        simp at hmem
        exact h (hmem ▸ ha)
      · rw [List.toFinset_append, Finset.range_succ, Finset.image_insert,
          ih.2]
        simp [Finset.union_comm, Finset.insert_eq]

theorem bucketLoop_length_eq_card (key : Nat → Nat) (n : Nat) (h : 1 ≤ n) :
    (bucketLoop key (n - 1)).length = (Finset.image key (Finset.range n)).card := by
  have hc := bucketLoop_nodup_toFinset key (n - 1)
  have hn : n - 1 + 1 = n := by omega
  rw [← List.toFinset_card_of_nodup hc.1, hc.2, hn]

theorem bucketLoop_length_pos (key : Nat → Nat) (m : Nat) :
    1 ≤ (bucketLoop key m).length := by
  induction m with
  | zero => simp [bucketLoop]
  | succ m ih =>
    by_cases h : key (m + 1) ∈ bucketLoop key m
    · simpa [bucketLoop, h] using ih
    · simp [bucketLoop, h]

theorem getSubID_idem (rawId maxCount shiftCount : Nat) :
    getSubID (getSubID rawId maxCount shiftCount) maxCount shiftCount
      = getSubID rawId maxCount shiftCount := by
  simp only [getSubID]
  apply Nat.eq_of_testBit_eq
  intro i
  simp [Nat.testBit_and, Bool.and_assoc]

theorem getSubID_testBit_range (rawId maxCount shiftCount i : Nat)
    (hr : rawId < 256)
    (h : (getSubID rawId maxCount shiftCount).testBit i = true) :
    shiftCount ≤ i ∧ i < shiftCount + find_maskwidth maxCount := by
  simp only [getSubID] at h
  rw [Nat.testBit_and, Bool.and_eq_true] at h
  obtain ⟨hraw, hmask⟩ := h
  have hi8 : i < 8 := by
    by_contra hge
    have : rawId < 2 ^ i := by
      calc rawId < 256 := hr
      _ = 2 ^ 8 := by norm_num
      _ ≤ 2 ^ i := Nat.pow_le_pow_right (by omega) (by omega)
    rw [Nat.testBit_lt_two_pow this] at hraw
    exact Bool.false_ne_true hraw
  have h32 : (4294967296 : Nat) = 2 ^ 32 := by norm_num
  have h255 : (255 : Nat) = 2 ^ 8 - 1 := by norm_num
  rw [h32, h255, Nat.testBit_mod_two_pow, Nat.testBit_xor,
    Nat.testBit_shiftLeft, Nat.testBit_shiftLeft,
    Nat.testBit_two_pow_sub_one, Nat.testBit_two_pow_sub_one] at hmask
  have hsub1 : i - shiftCount < 8 := by omega
  have hsub2 : i - (shiftCount + find_maskwidth maxCount) < 8 := by omega
  simp only [hi8, hsub1, hsub2, Bool.and_true,
    decide_eq_true_eq, Bool.true_and] at hmask
  by_cases hs : shiftCount ≤ i
  · by_cases hw : shiftCount + find_maskwidth maxCount ≤ i
    · simp [hs, hw, ge_iff_le] at hmask
    · exact ⟨hs, by omega⟩
  · by_cases hw : shiftCount + find_maskwidth maxCount ≤ i
    · omega
    · simp [hs, hw, ge_iff_le] at hmask

theorem probeLoop_records_spec (env : ProbeEnv) (lpc cpp : Nat) (js : List Nat)
    (st : LoopState) :
    ∀ r ∈ (probeLoop env lpc cpp js st).records,
      r ∈ st.records ∨
        (r.smtId = getSubID (env.apic r.index) lpc 0 ∧
         r.coreId = getSubID (env.apic r.index) cpp (find_maskwidth lpc) ∧
         r.pkgId = env.apic r.index &&&
           ((255 <<< find_maskwidth env.logicalPerPack) % 4294967296)) := by
  induction js generalizing st with
  | nil => exact fun r hr => Or.inl hr
  | cons j rest ih =>
    intro r hr
    rcases ih (probeStep env lpc cpp j st) r hr with hmem | hspec
    · by_cases hp : env.pinOK j
      · simp only [probeStep, hp, if_true, List.mem_append,
          List.mem_singleton] at hmem
        rcases hmem with h1 | h2
        · exact Or.inl h1
        · subst h2
          exact Or.inr ⟨rfl, rfl, rfl⟩
      · simp only [probeStep, hp, Bool.false_eq_true, if_false] at hmem
        exact Or.inl hmem
    · exact Or.inr hspec

/-- Claim C4: for every logical processor record the probe produces, the
three sub-identifiers are derived from its APIC ID exactly as
smtId = getSubID(apicId, logicalPerCore, 0),
coreId = getSubID(apicId, coresPerPackage, maskWidth(logicalPerCore)) and
packageId = apicId AND (0xFF shifted left by maskWidth(logicalPerPackage)),
where logicalPerCore = logicalPerPackage / coresPerPackage. -/
theorem probe_record_derivation (env : ProbeEnv) :
    ∀ r ∈ (CPUCountRun env).records,
      r.smtId = getSubID (env.apic r.index)
          (env.logicalPerPack / env.corePerPack.toNat) 0 ∧
      r.coreId = getSubID (env.apic r.index) env.corePerPack.toNat
          (find_maskwidth (env.logicalPerPack / env.corePerPack.toNat)) ∧
      r.pkgId = env.apic r.index &&&
          ((255 <<< find_maskwidth env.logicalPerPack) % 4294967296) := by
  intro r hr
  unfold CPUCountRun at hr
  by_cases hA : ∀ i ∈ Finset.range env.numProcessors, i ∈ env.sysAffinityMask
  · rw [if_pos hA] at hr
    by_cases hB : env.corePerPack ≤ 0
    · rw [if_pos hB] at hr
      simp at hr
    · rw [if_neg hB] at hr
      simp only [] at hr
      rcases probeLoop_records_spec env _ _ _ _ r hr with h | h
      · simp at h
      · exact h
  · rw [if_neg hA] at hr
    simp at hr

theorem CPUCountRun_early_mask (env : ProbeEnv)
    (h : ¬ ∀ i ∈ Finset.range env.numProcessors, i ∈ env.sysAffinityMask) :
    (CPUCountRun env).finalMask = env.sysAffinityMask ∧
      (CPUCountRun env).status = USER_CONFIG_ISSUE := by
  unfold CPUCountRun
  rw [if_neg h]
  exact ⟨rfl, rfl⟩

theorem CPUCountRun_corezero_mask (env : ProbeEnv)
    (h : env.corePerPack ≤ 0) :
    (CPUCountRun env).finalMask = env.sysAffinityMask ∧
      (CPUCountRun env).status = USER_CONFIG_ISSUE := by
  unfold CPUCountRun
  by_cases hA : ∀ i ∈ Finset.range env.numProcessors, i ∈ env.sysAffinityMask
  · rw [if_pos hA, if_pos h]
    exact ⟨rfl, rfl⟩
  · rw [if_neg hA]
    exact ⟨rfl, rfl⟩

theorem CPUCountRun_restore_mask (env : ProbeEnv)
    (h : env.restoreApplied = true) :
    (CPUCountRun env).finalMask = env.sysAffinityMask := by
  unfold CPUCountRun
  by_cases hA : ∀ i ∈ Finset.range env.numProcessors, i ∈ env.sysAffinityMask
  · rw [if_pos hA]
    by_cases hB : env.corePerPack ≤ 0
    · rw [if_pos hB]
    · rw [if_neg hB]
      simp [h]
  · rw [if_neg hA]

theorem CPUCountRun_early_counts (env : ProbeEnv)
    (h : ¬ ∀ i ∈ Finset.range env.numProcessors, i ∈ env.sysAffinityMask) :
    (CPUCountRun env).totAvailCore = 1 ∧ (CPUCountRun env).totPhysPack = 1 := by
  unfold CPUCountRun
  rw [if_neg h]
  exact ⟨rfl, rfl⟩

theorem CPUCountRun_corezero_counts (env : ProbeEnv)
    (h : env.corePerPack ≤ 0) :
    (CPUCountRun env).totAvailCore = 1 ∧ (CPUCountRun env).totPhysPack = 1 := by
  unfold CPUCountRun
  by_cases hA : ∀ i ∈ Finset.range env.numProcessors, i ∈ env.sysAffinityMask
  · rw [if_pos hA, if_pos h]
    exact ⟨rfl, rfl⟩
  · rw [if_neg hA]
    exact ⟨rfl, rfl⟩


/-- Claim C1 counterexample: on the 4-record table with packageId values
0, 0, 1, 1 and coreId values 0, 1, 0, 1 the OR keys are 0, 1, 1, 1, so
countAvailableCores returns 2, not the 4 asserted by the claim (the
package count 2 is as claimed). -/
theorem T4_core_count_is_two :
    countAvailableCores pkgT4 coreT4 4 = 2 ∧ countPhysicalPacks pkgT4 4 = 2 := by
  decide

/-- Claim C1 (amended): for every non-empty table of at most 256
records, countAvailableCores returns the number of distinct values of
packageId OR coreId and countPhysicalPacks the number of distinct
packageId values; the counts depend only on which key values occur, not
on record order; on the 4-record table with packageId values 0, 0, 1, 1
and coreId values 0, 1, 0, 1 the core count is 2 (the OR keys collide)
and the package count is 2, and a 2-record table with equal keys has
core count 1. -/
theorem dedup_counts_distinct :
    (∀ (pkg core : Nat → Nat) (n : Nat), 1 ≤ n → n ≤ 256 →
      countAvailableCores pkg core n
        = (Finset.image (fun i => pkg i ||| core i) (Finset.range n)).card) ∧
    (∀ (pkg : Nat → Nat) (n : Nat), 1 ≤ n → n ≤ 256 →
      countPhysicalPacks pkg n = (Finset.image pkg (Finset.range n)).card) ∧
    (∀ (pkg core pkg2 core2 : Nat → Nat) (n n2 : Nat), 1 ≤ n → 1 ≤ n2 →
      Finset.image (fun i => pkg i ||| core i) (Finset.range n)
        = Finset.image (fun i => pkg2 i ||| core2 i) (Finset.range n2) →
      countAvailableCores pkg core n = countAvailableCores pkg2 core2 n2) ∧
    countAvailableCores pkgT4 coreT4 4 = 2 ∧
    countPhysicalPacks pkgT4 4 = 2 ∧
    (∀ (pkg core : Nat → Nat), pkg 0 ||| core 0 = pkg 1 ||| core 1 →
      countAvailableCores pkg core 2 = 1) := by
  refine ⟨?_, ?_, ?_, by decide, by decide, ?_⟩
  · intro pkg core n h1 _
    exact bucketLoop_length_eq_card _ n h1
  · intro pkg n h1 _
    exact bucketLoop_length_eq_card _ n h1
  · intro pkg core pkg2 core2 n n2 h1 h2 him
    have e1 : countAvailableCores pkg core n
        = (Finset.image (fun i => pkg i ||| core i) (Finset.range n)).card :=
      bucketLoop_length_eq_card _ n h1
    have e2 : countAvailableCores pkg2 core2 n2
        = (Finset.image (fun i => pkg2 i ||| core2 i) (Finset.range n2)).card :=
      bucketLoop_length_eq_card _ n2 h2
    rw [e1, e2, him]
  · intro pkg core h
    simp [countAvailableCores, bucketLoop, h]

/-- Claim C1 witness: the distinct-count characterisation instantiated
on the concrete 4-record table. -/
theorem dedup_counts_distinct_w :
    countAvailableCores pkgT4 coreT4 4
      = (Finset.image (fun i => pkgT4 i ||| coreT4 i) (Finset.range 4)).card :=
  dedup_counts_distinct.1 pkgT4 coreT4 4 (by norm_num) (by norm_num)

/-- Claim C2: the classification step is a pure total function of the
four counts returning exactly one of the six capability values, with
the decision tree of the spec; the quadruple (1,1,1,1) classifies as
SingleCoreHTNotCapable and (4,2,2,8) as MultiCoreHTEnabled. -/
theorem classify_total_matches_spec :
    (∀ c p l e : Nat,
      CPUCountStatusOfCounts c p l e = statusCode (classifySpec c p l e)) ∧
    (∀ c p l e : Nat,
      CPUCountStatusOfCounts c p l e = SINGLE_CORE_AND_HT_NOT_CAPABLE ∨
      CPUCountStatusOfCounts c p l e = SINGLE_CORE_AND_HT_ENABLED ∨
      CPUCountStatusOfCounts c p l e = SINGLE_CORE_AND_HT_DISABLED ∨
      CPUCountStatusOfCounts c p l e = MULTI_CORE_AND_HT_NOT_CAPABLE ∨
      CPUCountStatusOfCounts c p l e = MULTI_CORE_AND_HT_ENABLED ∨
      CPUCountStatusOfCounts c p l e = MULTI_CORE_AND_HT_DISABLED) ∧
    classifySpec 1 1 1 1 = CapabilityClassification.SingleCoreHTNotCapable ∧
    CPUCountStatusOfCounts 1 1 1 1 = SINGLE_CORE_AND_HT_NOT_CAPABLE ∧
    classifySpec 4 2 2 8 = CapabilityClassification.MultiCoreHTEnabled ∧
    CPUCountStatusOfCounts 4 2 2 8 = MULTI_CORE_AND_HT_ENABLED := by
  refine ⟨?_, ?_, by decide, by decide, by decide, by decide⟩
  · intro c p l e
    unfold CPUCountStatusOfCounts classifySpec statusCode
    split_ifs <;> rfl
  · intro c p l e
    unfold CPUCountStatusOfCounts
    split_ifs
    · exact Or.inr (Or.inr (Or.inr (Or.inl rfl)))
    · exact Or.inr (Or.inr (Or.inr (Or.inr (Or.inl rfl))))
    · exact Or.inr (Or.inr (Or.inr (Or.inr (Or.inr rfl))))
    · exact Or.inl rfl
    · exact Or.inr (Or.inl rfl)
    · exact Or.inr (Or.inr (Or.inl rfl))

/-- Claim C3 counterexample: find_maskwidth is not the ceiling base-2
logarithm for every positive input, because the bsrw instruction only
scans the low 16 bits: at 65537 the predecessor 65536 has a zero low
word, so the function returns 0 and the law maxCount less than or equal
to 2 to the power of the width fails. -/
theorem find_maskwidth_16bit_truncation :
    find_maskwidth 65537 = 0 ∧ 2 ^ find_maskwidth 65537 < 65537 := by
  decide

/-- Claim C3 (amended): for every maxCount with 1 <= maxCount <= 65536
(so that maxCount - 1 fits the 16-bit bsrw operand), find_maskwidth
equals the ceiling base-2 logarithm, the five tabulated values hold,
and 2 to the power of the width is at least maxCount while 2 to the
power of (width - 1) is below it whenever the width is positive. -/
theorem find_maskwidth_ceil_log2 :
    (∀ n : Nat, 1 ≤ n → n ≤ 65536 → find_maskwidth n = Nat.clog 2 n) ∧
    find_maskwidth 1 = 0 ∧ find_maskwidth 2 = 1 ∧ find_maskwidth 3 = 2 ∧
    find_maskwidth 4 = 2 ∧ find_maskwidth 5 = 3 ∧
    (∀ n : Nat, 1 ≤ n → n ≤ 65536 → n ≤ 2 ^ find_maskwidth n) ∧
    (∀ n : Nat, 1 ≤ n → n ≤ 65536 → 0 < find_maskwidth n →
      2 ^ (find_maskwidth n - 1) < n) :=
  ⟨find_maskwidth_eq_clog, by decide, by decide, by decide, by decide,
   by decide, find_maskwidth_pow_ge, find_maskwidth_pow_lt⟩

/-- Claim C3 witness: the amended characterisation instantiated at 5. -/
theorem find_maskwidth_ceil_log2_w : find_maskwidth 5 = Nat.clog 2 5 :=
  find_maskwidth_ceil_log2.1 5 (by norm_num) (by norm_num)

/-- Claim C4 witness: in the concrete environment `envW` the probe
produces exactly the record `rW`, whose fields satisfy the three
derivation equations. -/
theorem probe_record_derivation_w :
    rW.smtId = getSubID (envW.apic rW.index)
        (envW.logicalPerPack / envW.corePerPack.toNat) 0 ∧
    rW.coreId = getSubID (envW.apic rW.index) envW.corePerPack.toNat
        (find_maskwidth (envW.logicalPerPack / envW.corePerPack.toNat)) ∧
    rW.pkgId = envW.apic rW.index &&&
        ((255 <<< find_maskwidth envW.logicalPerPack) % 4294967296) :=
  probe_record_derivation envW rW (by decide)

/-- Claim C5: on every return path of CPUCount — the early
UserConfigurationIssue return for a disabled processor, the early
return for coresPerPackage at most 0, and normal completion (provided
the operating system honours the restoring set-affinity call) — the
process affinity mask at return equals the mask that was in effect at
entry. -/
theorem affinity_restored_on_all_paths :
    (∀ env : ProbeEnv,
      (¬ ∀ i ∈ Finset.range env.numProcessors, i ∈ env.sysAffinityMask) →
      (CPUCountRun env).finalMask = env.sysAffinityMask ∧
        (CPUCountRun env).status = USER_CONFIG_ISSUE) ∧
    (∀ env : ProbeEnv, env.corePerPack ≤ 0 →
      (CPUCountRun env).finalMask = env.sysAffinityMask ∧
        (CPUCountRun env).status = USER_CONFIG_ISSUE) ∧
    (∀ env : ProbeEnv, env.restoreApplied = true →
      (CPUCountRun env).finalMask = env.sysAffinityMask) :=
  ⟨CPUCountRun_early_mask, CPUCountRun_corezero_mask, CPUCountRun_restore_mask⟩

/-- Claim C5 witness: the restoration property instantiated on the
concrete environment `envW`. -/
theorem affinity_restored_on_all_paths_w :
    (CPUCountRun envW).finalMask = envW.sysAffinityMask :=
  affinity_restored_on_all_paths.2.2 envW rfl

/-- Claim C6: the code does not signal any contract violation when
maxCount = 0 is passed; find_maskwidth silently wraps 0 - 1 to
0xFFFFFFFF, scans its low word 0xFFFF and returns 16, and getSubID
silently returns a masked value (171 for fullID 171). -/
theorem maxcount_zero_silently_coerced :
    find_maskwidth 0 = 16 ∧ getSubID 171 0 0 = 171 := by
  decide

/-- Claim C7 counterexample: for rawId = 256 (not an 8-bit value),
maxCount = 2 and shiftCount = 0, the result 256 keeps bit 8 set, which
lies outside the contiguous mask of width find_maskwidth 2 = 1 at
position 0: the mask built from 0xff constants has a stray high
replica at bits 8 and above. -/
theorem getSubID_stray_bit :
    getSubID 256 2 0 = 256 ∧ (getSubID 256 2 0).testBit 8 = true ∧
      0 + find_maskwidth 2 ≤ 8 := by
  decide

/-- Claim C7 (amended): getSubID is idempotent under re-extraction with
the same parameters for every rawId, and for every 8-bit rawId (below
256, as the source documents fullID to be) the result has no bits set
outside the contiguous mask of find_maskwidth maxCount bits positioned
at shiftCount. -/
theorem getSubID_idempotent_and_masked :
    (∀ rawId maxCount shiftCount : Nat, 1 ≤ maxCount →
      getSubID (getSubID rawId maxCount shiftCount) maxCount shiftCount
        = getSubID rawId maxCount shiftCount) ∧
    (∀ rawId maxCount shiftCount i : Nat, 1 ≤ maxCount → rawId < 256 →
      (getSubID rawId maxCount shiftCount).testBit i = true →
      shiftCount ≤ i ∧ i < shiftCount + find_maskwidth maxCount) :=
  ⟨fun r m s _ => getSubID_idem r m s,
   fun r m s i _ hr h => getSubID_testBit_range r m s i hr h⟩

/-- Claim C7 witness: idempotence and the mask bound instantiated at
rawId = 171, maxCount = 2, shiftCount = 0, bit 0. -/
theorem getSubID_idempotent_and_masked_w :
    getSubID (getSubID 171 2 0) 2 0 = getSubID 171 2 0 ∧
      (0 ≤ 0 ∧ 0 < 0 + find_maskwidth 2) :=
  ⟨getSubID_idempotent_and_masked.1 171 2 0 (by norm_num),
   getSubID_idempotent_and_masked.2 171 2 0 0 (by norm_num) (by norm_num)
     (by decide)⟩

/-- Claim C8 counterexample: with package IDs 0, 1 and core IDs 1, 0 the
two OR keys are both 1, so countAvailableCores returns 1 while
countPhysicalPacks returns 2 — the core count is strictly below the
package count when the package and core bit-fields overlap. -/
theorem cores_lt_packs_swapped_fields :
    countAvailableCores pkgSwap coreSwap 2 = 1 ∧
      countPhysicalPacks pkgSwap 2 = 2 ∧
      countAvailableCores pkgSwap coreSwap 2 < countPhysicalPacks pkgSwap 2 := by
  decide

theorem or_and_mask (a b m : Nat) (ha : a &&& m = a) (hb : b &&& m = 0) :
    (a ||| b) &&& m = a := by
  apply Nat.eq_of_testBit_eq
  intro i
  have hai : (a.testBit i && m.testBit i) = a.testBit i := by
    rw [← Nat.testBit_and, ha]
  have hbi : (b.testBit i && m.testBit i) = false := by
    rw [← Nat.testBit_and, hb, Nat.zero_testBit]
  rw [Nat.testBit_and, Nat.testBit_or, Bool.and_or_distrib_right, hai, hbi,
    Bool.or_false]

theorem packs_le_cores_of_disjoint (pkg core : Nat → Nat) (n M : Nat)
    (h1 : 1 ≤ n)
    (hp : ∀ i, i < n → pkg i &&& M = pkg i)
    (hc : ∀ i, i < n → core i &&& M = 0) :
    countPhysicalPacks pkg n ≤ countAvailableCores pkg core n := by
  have e1 : countPhysicalPacks pkg n
      = (Finset.image pkg (Finset.range n)).card :=
    bucketLoop_length_eq_card pkg n h1
  have e2 : countAvailableCores pkg core n
      = (Finset.image (fun i => pkg i ||| core i) (Finset.range n)).card :=
    bucketLoop_length_eq_card (fun i => pkg i ||| core i) n h1
  rw [e1, e2]
  have himg : Finset.image pkg (Finset.range n)
      = Finset.image (fun k => k &&& M)
          (Finset.image (fun i => pkg i ||| core i) (Finset.range n)) := by
    rw [Finset.image_image]
    apply Finset.image_congr
    intro i hi
    simp only [Finset.coe_range, Set.mem_Iio] at hi
    exact (or_and_mask (pkg i) (core i) M (hp i hi) (hc i hi)).symm
  rw [himg]
  exact Finset.card_image_le

/-- Claim C8 (amended): for every non-empty table whose packageId field
occupies a bit mask M disjoint from all coreId bits (as holds for the
tables the probe builds when the fields do not overlap), the number of
distinct packageId OR coreId keys is at least the number of distinct
packageId values. -/
theorem packs_le_cores_of_field_mask :
    ∀ (pkg core : Nat → Nat) (n M : Nat), 1 ≤ n →
      (∀ i, i < n → pkg i &&& M = pkg i) →
      (∀ i, i < n → core i &&& M = 0) →
      countPhysicalPacks pkg n ≤ countAvailableCores pkg core n :=
  fun pkg core n M h1 hp hc => packs_le_cores_of_disjoint pkg core n M h1 hp hc

/-- Claim C8 witness: the amended inequality instantiated on the
2-record table with package IDs 0, 4 inside mask 12 and core IDs 1, 1
outside it. -/
theorem packs_le_cores_of_field_mask_w :
    countPhysicalPacks pkgDisj 2 ≤ countAvailableCores pkgDisj coreDisj 2 :=
  packs_le_cores_of_field_mask pkgDisj coreDisj 2 12 (by norm_num)
    (by decide) (by decide)

/-- Claim C9: evaluation of the probe at the failing input `envBug`
(pinning fails for processor 0, succeeds for processor 1): the single
record is written at table index 1 although numLPEnabled is 1, so the
record indices do not occupy the range read by the aggregation
functions — the invariant of the claim is violated by the code. -/
theorem probe_gap_on_pin_failure :
    ((CPUCountRun envBug).records.map LPRec.index) = [1] ∧
      (CPUCountRun envBug).totAvailLogical = some 1 := by
  decide

/-- Claim C10: both aggregation counters return at least 1 on every
input, they return exactly 1 on the empty table, and CPUCount reports
both counts as 1 on each early-return path (they are initialised to 1
before probing). -/
theorem counts_always_at_least_one :
    (∀ (pkg core : Nat → Nat) (n : Nat), 1 ≤ countAvailableCores pkg core n) ∧
    (∀ (pkg : Nat → Nat) (n : Nat), 1 ≤ countPhysicalPacks pkg n) ∧
    (∀ (pkg core : Nat → Nat), countAvailableCores pkg core 0 = 1) ∧
    (∀ (pkg : Nat → Nat), countPhysicalPacks pkg 0 = 1) ∧
    (∀ env : ProbeEnv,
      (¬ ∀ i ∈ Finset.range env.numProcessors, i ∈ env.sysAffinityMask) →
      (CPUCountRun env).totAvailCore = 1 ∧ (CPUCountRun env).totPhysPack = 1) ∧
    (∀ env : ProbeEnv, env.corePerPack ≤ 0 →
      (CPUCountRun env).totAvailCore = 1 ∧ (CPUCountRun env).totPhysPack = 1) := by
  refine ⟨?_, ?_, ?_, ?_, CPUCountRun_early_counts, CPUCountRun_corezero_counts⟩
  · intro pkg core n
    exact bucketLoop_length_pos _ _
  · intro pkg n
    exact bucketLoop_length_pos _ _
  · intro pkg core
    rfl
  · intro pkg
    rfl

/-- Claim C10 witness: the early-path initialisation instantiated on the
environment `envEarly`, whose affinity mask is missing processor 0. -/
theorem counts_always_at_least_one_w :
    (CPUCountRun envEarly).totAvailCore = 1 ∧
      (CPUCountRun envEarly).totPhysPack = 1 :=
  counts_always_at_least_one.2.2.2.2.1 envEarly (by decide)
